import Mathlib

/-!
Verification of the agentbuilder plan-execute core.

Shallow embedding of the repository's core components:
  * `JVal`            — the JSON-like Python values handed to `json.dumps`
  * `ToolCall`        — a tool-call request (`id`, `function.name`, `function.arguments`)
  * `MessageAction`   — the four message dataclasses stored in conversation history
  * `AgenticPlanner.step`      — Planner/base.py
  * `AgenticLoop.runAux / run` — Loop/base.py (fuel = remaining iteration budget)
  * `Tool.execute`, `Response.to_dict` — Tools/base.py
  * `ExecuteToolsAction.run`   — Action/base.py
  * `Msg`, save/load           — Client/base.py conversation persistence
  * `SessionStore`, endpoint handlers — Server/base.py
  * `RemoteAgentTool.close`    — Tools/remote_agent_tool.py

Python exceptions are modelled with `Except String`; `json.loads` is an
external library call and is modelled as a parameter
`loads : String → Option JVal` (`none` = the call raises `JSONDecodeError`).
Python truthiness of optional strings and optional lists is made explicit by
`optStrTruthy` / `optListTruthy`.
-/

namespace AgentBuilder

/-- JSON-like values: the Python objects that flow through `json.dumps`
(`None`, `bool`, `int`, `str`, object). Arrays are not needed by the
content payloads the claims inspect. -/
inductive JVal where
  | null : JVal
  | bool : Bool → JVal
  | int : Int → JVal
  | str : String → JVal
  | obj : List (String × JVal) → JVal

/-- Dictionary lookup on a JSON object (`d[k]` returning `none` when the key
is absent or the value is not an object). -/
def JVal.lookup : JVal → String → Option JVal
  | JVal.obj kvs, k => kvs.lookup k
  | _, _ => none

/-- Escape a character for a JSON string literal (`json.dumps` escaping,
restricted to the quote and backslash cases the embedding needs). -/
def escChar (c : Char) : String :=
  if c = '\\' then "\\\\" else if c = '"' then "\\\"" else String.singleton c

/-- Escape a string for a JSON string literal. -/
def escape (s : String) : String := String.join (s.data.map escChar)

/-- A JSON string literal, quotes included. -/
def jstr (s : String) : String := "\"" ++ escape s ++ "\""

mutual
/-- `json.dumps` with the default separators. -/
def dumps : JVal → String
  | JVal.null => "null"
  | JVal.bool b => if b then "true" else "false"
  | JVal.int n => toString n
  | JVal.str s => jstr s
  | JVal.obj kvs => "\x7b" ++ dumpsObj kvs ++ "\x7d"

/-- `json.dumps` of the key/value pairs of an object, comma-separated. -/
def dumpsObj : List (String × JVal) → String
  | [] => ""
  | [(k, v)] => jstr k ++ ": " ++ dumps v
  | (k, v) :: kv :: rest => jstr k ++ ": " ++ dumps v ++ ", " ++ dumpsObj (kv :: rest)
end

/-- A tool-call request in the object format consumed by
`ExecuteToolsAction.run`: `tool_call.id`, `tool_call.function.name`,
`tool_call.function.arguments` (a JSON-encoded string). -/
structure ToolCall where
  id : String
  name : String
  arguments : String
deriving DecidableEq, Repr

/-- Python truthiness of an `Optional[str]`: `None` and `""` are falsy. -/
def optStrTruthy : Option String → Bool
  | none => false
  | some s => !(s == "")

/-- Python truthiness of an `Optional[List]`: `None` and `[]` are falsy. -/
def optListTruthy {α : Type} : Option (List α) → Bool
  | none => false
  | some l => !l.isEmpty

/-- The four message dataclasses stored in conversation history
(`SystemMessageAction`, `UserMessageAction`, `AssistantMessageAction`,
`ToolMessageAction` in Action/base.py). -/
inductive MessageAction where
  | system (content : String)
  | user (content : String)
  | assistant (content : Option String) (tool_calls : Option (List ToolCall))
  | tool (tool_call_id : String) (name : String) (content : String)
deriving DecidableEq, Repr

/-- `type(last_action).__name__`, used in the planner's error message. -/
def MessageAction.className : MessageAction → String
  | MessageAction.system _ => "SystemMessageAction"
  | MessageAction.user _ => "UserMessageAction"
  | MessageAction.assistant _ _ => "AssistantMessageAction"
  | MessageAction.tool _ _ _ => "ToolMessageAction"

/-- The planner's output, as plain data (the control-flow Action classes of
Action/base.py, stripped of the `tool_map` / `conversation_wrapper`
plumbing fields that carry no decision content). -/
inductive PlannerAction where
  | executeTools (tool_calls : List ToolCall)
  | makeLLMRequest
  | complete (content : String) (iterations : Nat)
  | empty (iterations : Nat)
deriving DecidableEq, Repr

/-- `AgenticPlanner.step` (Planner/base.py): decide the next action from the
last entry of the conversation history. `Except.error` models the
`NotImplementedError` raised on an unhandled conversation state. -/
def AgenticPlanner.step (conversation_history : List MessageAction)
    (iterations : Nat) : Except String PlannerAction :=
  match conversation_history.getLast? with
  | none => Except.ok (PlannerAction.empty iterations)
  | some (MessageAction.assistant content tool_calls) =>
      if optListTruthy tool_calls then
        Except.ok (PlannerAction.executeTools (tool_calls.getD []))
      else if optStrTruthy content then
        Except.ok (PlannerAction.complete (content.getD "") iterations)
      else
        Except.error ("Unhandled conversation state: AssistantMessageAction")
  | some (MessageAction.tool _ _ _) => Except.ok PlannerAction.makeLLMRequest
  | some (MessageAction.user _) => Except.ok PlannerAction.makeLLMRequest
  | some (MessageAction.system _) =>
      Except.error ("Unhandled conversation state: SystemMessageAction")

/-- The `isinstance(action, (CompleteAction, EmptyAction))` terminal check
in `AgenticLoop.run`. -/
def PlannerAction.isTerminal : PlannerAction → Bool
  | PlannerAction.complete _ _ => true
  | PlannerAction.empty _ => true
  | _ => false

/-- `result if result is not None else ""` for a terminal action:
`CompleteAction.run` returns its `content`, `EmptyAction.run` returns `""`. -/
def PlannerAction.terminalResult : PlannerAction → String
  | PlannerAction.complete c _ => c
  | _ => ""

/-- The `while iterations < self.max_iterations` loop body of
`AgenticLoop.run` (Loop/base.py), parametrised by the planner `P`
(`self.planner.step`) and by the effect `E` of running a nonterminal
action on the conversation history (tool execution / LLM request appending
entries). The fuel argument is the remaining budget
`max_iterations - iterations`; exhausting it yields the sentinel.
Returns the result string paired with the number of planner invocations
performed; `Except.error` models an exception escaping the loop. -/
def AgenticLoop.runAux
    (P : List MessageAction → Nat → Except String PlannerAction)
    (E : PlannerAction → List MessageAction → Except String (List MessageAction)) :
    Nat → List MessageAction → Nat → Except String (String × Nat)
  | 0, _, _ => Except.ok ("Max iterations reached", 0)
  | fuel + 1, hist, iterations =>
      match P hist (iterations + 1) with
      | Except.error e => Except.error e
      | Except.ok action =>
          if action.isTerminal then
            Except.ok (action.terminalResult, 1)
          else
            match E action hist with
            | Except.error e => Except.error e
            | Except.ok hist2 =>
                match AgenticLoop.runAux P E fuel hist2 (iterations + 1) with
                | Except.error e => Except.error e
                | Except.ok (r, n) => Except.ok (r, n + 1)

/-- `AgenticLoop.run` (Loop/base.py): append the user message, then run the
plan-execute loop with budget `max_iterations` starting from
`iterations = 0`. -/
def AgenticLoop.run
    (P : List MessageAction → Nat → Except String PlannerAction)
    (E : PlannerAction → List MessageAction → Except String (List MessageAction))
    (max_iterations : Nat) (hist : List MessageAction) (message : String) :
    Except String (String × Nat) :=
  AgenticLoop.runAux P E max_iterations (hist ++ [MessageAction.user message]) 0

/-- `Response` (Tools/base.py): the standard tool-execution result. -/
structure Response where
  success : Bool
  data : JVal
  error : Option String

/-- `Response.to_dict`: `{"success": ..., "data": ...}` plus an `"error"`
key only when `self.error` is truthy. -/
def Response.to_dict (r : Response) : JVal :=
  JVal.obj ([("success", JVal.bool r.success), ("data", r.data)] ++
    (if optStrTruthy r.error then [("error", JVal.str (r.error.getD ""))] else []))

/-- `Tool` (Tools/base.py): a named callable. The wrapped Python callable
receives the parsed argument object (`**kwargs`) and either returns a value
or raises — modelled as `Except String JVal`. -/
structure Tool where
  name : String
  description : String
  parameters : JVal
  function : JVal → Except String JVal

/-- `Tool.execute`: run the callable, catching any exception and converting
it into a failure `Response`. -/
def Tool.execute (t : Tool) (kwargs : JVal) : Response :=
  match t.function kwargs with
  | Except.ok result => ⟨true, result, none⟩
  | Except.error e => ⟨false, JVal.null, some e⟩

/-- The `**function_args` splat at the
`self.tool_map[function_name].execute(**function_args)` call site
(Action/base.py line 88): a mapping yields the keyword arguments, any
other value raises `TypeError` at the call itself — outside
`Tool.execute`'s `try/except`, hence uncaught. -/
def splatKwargs : JVal → Except String JVal
  | JVal.obj kwargs => Except.ok (JVal.obj kwargs)
  | _ => Except.error "TypeError: argument after ** must be a mapping"

/-- The `result_content` computed by `ExecuteToolsAction.run` for one tool
call whose arguments parsed to `function_args`: when the name resolves in
`tool_map`, splat the arguments into `execute` (a non-mapping parse raises
the uncaught `TypeError` of `splatKwargs`) and dump `Response.to_dict`;
when the name is absent, `execute` is never called, so the dumped
`{"error": "Tool <name> not found"}` object is produced whatever the
argument shape. -/
def result_content (tool_map : List (String × Tool)) (tool_call : ToolCall)
    (function_args : JVal) : Except String String :=
  match tool_map.lookup tool_call.name with
  | some tool =>
      match splatKwargs function_args with
      | Except.ok kwargs => Except.ok (dumps ((tool.execute kwargs).to_dict))
      | Except.error e => Except.error e
  | none =>
      Except.ok (dumps (JVal.obj
        [("error", JVal.str ("Tool " ++ tool_call.name ++ " not found"))]))

/-- `ExecuteToolsAction.run` (Action/base.py): for each tool call, parse its
arguments with `json.loads` (the `loads` parameter; `none` = raise), look
the name up in `tool_map`, build the result content (`result_content`,
whose registered-tool branch raises `TypeError` when the parsed arguments
are not a mapping), and append a `ToolMessageAction`. Returns the
conversation history as mutated so far, paired with `some e` when an
exception was raised (aborting the rest of the batch). -/
def ExecuteToolsAction.run (loads : String → Option JVal)
    (tool_map : List (String × Tool)) :
    List ToolCall → List MessageAction → List MessageAction × Option String
  | [], hist => (hist, none)
  | tool_call :: rest, hist =>
      match loads tool_call.arguments with
      | none => (hist, some "JSONDecodeError")
      | some function_args =>
          match result_content tool_map tool_call function_args with
          | Except.error e => (hist, some e)
          | Except.ok content =>
              ExecuteToolsAction.run loads tool_map rest
                (hist ++ [MessageAction.tool tool_call.id tool_call.name content])

/-- Whether a tool call's arguments string parses as a JSON object — the
only argument shape the `execute(**function_args)` splat accepts. -/
def parsesToObject (loads : String → Option JVal) (tc : ToolCall) : Bool :=
  match loads tc.arguments with
  | some (JVal.obj _) => true
  | _ => false

/-- The executor dispatch the loop performs via `action.run()`, for the
loop-level claims: `ExecuteToolsAction.run` for a tool batch (an exception
escaping the batch escapes the loop), the model boundary `llm` for
`MakeLLMRequestAction` (appending the assistant entry it returns). -/
def execAction (loads : String → Option JVal) (tool_map : List (String × Tool))
    (llm : List MessageAction → Except String MessageAction) :
    PlannerAction → List MessageAction → Except String (List MessageAction)
  | PlannerAction.executeTools tcs, hist =>
      match ExecuteToolsAction.run loads tool_map tcs hist with
      | (hist2, none) => Except.ok hist2
      | (_, some e) => Except.error e
  | PlannerAction.makeLLMRequest, hist =>
      match llm hist with
      | Except.ok m => Except.ok (hist ++ [m])
      | Except.error e => Except.error e
  | _, hist => Except.ok hist

/-- An OpenAI-format message dict as produced by the `to_message` methods
(Action/base.py). An `Option` field models the key being absent (or, for
`content`, present with value `null` — `msg.get("content")` and
`msg["content"] is None` are indistinguishable on the save image, where
system/user/tool contents are always present strings). -/
structure Msg where
  role : String
  content : Option String
  tool_call_id : Option String
  name : Option String
  tool_calls : Option (List ToolCall)
deriving DecidableEq, Repr

/-- The `to_message` methods of the four message dataclasses. The assistant
case adds the `tool_calls` key only when `self.tool_calls` is truthy. -/
def MessageAction.to_message : MessageAction → Msg
  | MessageAction.system c => ⟨"system", some c, none, none, none⟩
  | MessageAction.user c => ⟨"user", some c, none, none, none⟩
  | MessageAction.assistant c tcs =>
      ⟨"assistant", c, none, none, if optListTruthy tcs then tcs else none⟩
  | MessageAction.tool id name c => ⟨"tool", some c, some id, some name, none⟩

/-- `SystemMessageAction.from_message`: `msg["content"]` (KeyError when
absent). -/
def SystemMessageAction.from_message (msg : Msg) : Except String MessageAction :=
  match msg.content with
  | some c => Except.ok (MessageAction.system c)
  | none => Except.error "KeyError: content"

/-- `UserMessageAction.from_message`: `msg["content"]` (KeyError when
absent). -/
def UserMessageAction.from_message (msg : Msg) : Except String MessageAction :=
  match msg.content with
  | some c => Except.ok (MessageAction.user c)
  | none => Except.error "KeyError: content"

/-- `AssistantMessageAction.from_message`: `msg.get("content")` and
`msg.get("tool_calls")`, both total. -/
def AssistantMessageAction.from_message (msg : Msg) : Except String MessageAction :=
  Except.ok (MessageAction.assistant msg.content msg.tool_calls)

/-- `ToolMessageAction.from_message`: `msg["tool_call_id"]`, `msg["name"]`,
`msg["content"]` (KeyError when any is absent). -/
def ToolMessageAction.from_message (msg : Msg) : Except String MessageAction :=
  match msg.tool_call_id, msg.name, msg.content with
  | some id, some name, some c => Except.ok (MessageAction.tool id name c)
  | _, _, _ => Except.error "KeyError"

/-- The `role_mapping.get(msg["role"])` dispatch in `load_conversation`:
`none` when the role is not in the mapping (the message is skipped). -/
def roleFromMessage (msg : Msg) : Option (Except String MessageAction) :=
  if msg.role == "system" then some (SystemMessageAction.from_message msg)
  else if msg.role == "user" then some (UserMessageAction.from_message msg)
  else if msg.role == "assistant" then some (AssistantMessageAction.from_message msg)
  else if msg.role == "tool" then some (ToolMessageAction.from_message msg)
  else none

/-- `BaseConversationWrapper.save_conversation` (Client/base.py): serialise
the history via `to_messages()` (the file-level `json.dump`/`json.load`
round trip is the identity on this data and is elided). -/
def BaseConversationWrapper.save_conversation (hist : List MessageAction) :
    List Msg :=
  hist.map MessageAction.to_message

/-- `BaseConversationWrapper.load_conversation` (Client/base.py): rebuild
the history, dispatching on each message's role, skipping unknown roles,
and propagating any `from_message` exception. -/
def BaseConversationWrapper.load_conversation :
    List Msg → Except String (List MessageAction)
  | [] => Except.ok []
  | msg :: rest =>
      match roleFromMessage msg with
      | none => BaseConversationWrapper.load_conversation rest
      | some (Except.error e) => Except.error e
      | some (Except.ok a) =>
          match BaseConversationWrapper.load_conversation rest with
          | Except.error e => Except.error e
          | Except.ok actions => Except.ok (a :: actions)

/-- `_SessionStore` (Server/base.py): the `session_id -> AgenticLoop` map,
as an association list with `dict` semantics (Python `uuid4().hex` id
generation is external: fresh ids are supplied by the caller of `create`).
The agent type is abstract (`α`). -/
structure SessionStore (α : Type) where
  sessions : List (String × α)

/-- `_SessionStore.create`: register a freshly built agent under the given
fresh id (`self._sessions[session_id] = agent`). -/
def SessionStore.create {α : Type} (s : SessionStore α) (agent : α)
    (session_id : String) : SessionStore α × String :=
  (⟨s.sessions ++ [(session_id, agent)]⟩, session_id)

/-- `_SessionStore.get`: `KeyError` when the id is absent. -/
def SessionStore.get {α : Type} (s : SessionStore α) (session_id : String) :
    Except String α :=
  match s.sessions.lookup session_id with
  | none => Except.error ("KeyError: " ++ session_id)
  | some agent => Except.ok agent

/-- `_SessionStore.delete`: `KeyError` when the id is absent, otherwise
remove the binding. -/
def SessionStore.delete {α : Type} (s : SessionStore α) (session_id : String) :
    Except String (SessionStore α) :=
  match s.sessions.lookup session_id with
  | none => Except.error ("KeyError: " ++ session_id)
  | some _ => Except.ok ⟨s.sessions.filter (fun p => !(p.1 == session_id))⟩

/-- In-place mutation of the agent object a session id maps to (Python
mutates the stored `AgenticLoop` through its reference; functionally, the
value at that id is replaced). -/
def SessionStore.setAgent {α : Type} (s : SessionStore α) (session_id : String)
    (agent : α) : SessionStore α :=
  ⟨s.sessions.map (fun p => cond (p.1 == session_id) (p.1, agent) p)⟩

/-- An HTTP endpoint outcome: a 200 body, or the 404 `HTTPException`. -/
inductive HttpResult (β : Type) where
  | ok : β → HttpResult β
  | notFound : String → HttpResult β
deriving DecidableEq, Repr

/-- The `POST /sessions/{session_id}/run` handler (Server/base.py):
`store.get`, 404 on `KeyError`, else `agent.run(request.message)`. The
agent's `run` behaviour is the parameter `runF` (new agent state, response
string). -/
def session_run {α : Type} (runF : α → String → α × String)
    (store : SessionStore α) (session_id : String) (message : String) :
    HttpResult String × SessionStore α :=
  match store.get session_id with
  | Except.error _ => (HttpResult.notFound "Session not found", store)
  | Except.ok agent =>
      let r := runF agent message
      (HttpResult.ok r.2, store.setAgent session_id r.1)

/-- The `POST /sessions/{session_id}/reset` handler: `store.get`, 404 on
`KeyError`, else `agent.reset()` and status "ok". -/
def session_reset {α : Type} (resetF : α → α) (store : SessionStore α)
    (session_id : String) : HttpResult String × SessionStore α :=
  match store.get session_id with
  | Except.error _ => (HttpResult.notFound "Session not found", store)
  | Except.ok agent => (HttpResult.ok "ok", store.setAgent session_id (resetF agent))

/-- The `DELETE /sessions/{session_id}` handler: `store.delete`, 404 on
`KeyError`, else status "ok". -/
def delete_session {α : Type} (store : SessionStore α) (session_id : String) :
    HttpResult String × SessionStore α :=
  match store.delete session_id with
  | Except.error _ => (HttpResult.notFound "Session not found", store)
  | Except.ok s2 => (HttpResult.ok "ok", s2)

/-- The state of a `RemoteAgentTool` (Tools/remote_agent_tool.py) relevant
to `close`: the base URL and the current session id (`None` after close). -/
structure RemoteAgentTool where
  base_url : String
  session_id : Option String
deriving DecidableEq, Repr

/-- `RemoteAgentTool.close`: if no session id, return immediately;
otherwise issue `DELETE {base_url}/sessions/{id}` (best-effort — a raising
`requests.delete` is swallowed by the `try/except`, so the id is cleared
either way) and clear the session id. The second component lists the
DELETE request URLs issued. -/
def RemoteAgentTool.close (t : RemoteAgentTool) : RemoteAgentTool × List String :=
  match t.session_id with
  | none => (t, [])
  | some sid => (⟨t.base_url, none⟩, [t.base_url ++ "/sessions/" ++ sid])

/-- Whether a history entry is an assistant entry carrying the (Python)
falsy-but-present empty `tool_calls` list — the one shape the persistence
layer does not round-trip exactly. Statement-support predicate. -/
def MessageAction.hasEmptyToolCalls : MessageAction → Bool
  | MessageAction.assistant _ (some []) => true
  | _ => false

/-- Concrete `json.loads` stand-in for witnesses: every argument string
parses to the empty object, except the string "bad" which raises. -/
def wLoads (s : String) : Option JVal :=
  if s == "bad" then none else some (JVal.obj [])

/-- Concrete tool for witnesses: returns 8. -/
def wAdd : Tool := ⟨"add", "adds", JVal.obj [], fun _ => Except.ok (JVal.int 8)⟩

/-- Concrete tool for witnesses: always raises. -/
def wBoom : Tool := ⟨"boom", "raises", JVal.obj [], fun _ => Except.error "boom failed"⟩

/-- Concrete tool registry for witnesses. -/
def wToolMap : List (String × Tool) := [("add", wAdd), ("boom", wBoom)]

/-- Concrete conversation history (one entry of each kind) for the
persistence round-trip witness. -/
def wHist : List MessageAction :=
  [MessageAction.system "be nice",
   MessageAction.user "add 5 3",
   MessageAction.assistant none (some [⟨"c1", "add", "args"⟩]),
   MessageAction.tool "c1" "add" "result",
   MessageAction.assistant (some "8") none]

/-- C1: for every conversation history whose last entry is an
`AssistantMessageAction` with a non-empty `tool_calls` list,
`AgenticPlanner.step` returns an `ExecuteToolsAction` carrying exactly
those tool calls, regardless of any text content also present. -/
theorem planner_tool_requests_priority (pre : List MessageAction)
    (content : Option String) (tcs : List ToolCall) (iterations : Nat)
    (hne : tcs ≠ []) :
    AgenticPlanner.step (pre ++ [MessageAction.assistant content (some tcs)])
        iterations
      = Except.ok (PlannerAction.executeTools tcs) := by
  cases tcs with
  | nil => exact absurd rfl hne
  | cons x xs =>
      unfold AgenticPlanner.step
      rw [List.getLast?_concat]
      rfl

/-- Witness for C1 at a concrete history carrying both text and a tool
request. -/
theorem planner_tool_requests_priority_witness :
    AgenticPlanner.step
        [MessageAction.user "hi",
         MessageAction.assistant (some "thinking") (some [⟨"c1", "add", "args"⟩])] 2
      = Except.ok (PlannerAction.executeTools [⟨"c1", "add", "args"⟩]) :=
  planner_tool_requests_priority [MessageAction.user "hi"] (some "thinking")
    [⟨"c1", "add", "args"⟩] 2 (List.cons_ne_nil _ _)

/-- C6: on a non-empty history whose last entry is an assistant entry with
neither truthy content nor truthy tool calls, or a system entry,
`AgenticPlanner.step` raises (`NotImplementedError`) instead of returning
an action, and the exception propagates out of the loop body unhandled. -/
theorem planner_malformed_state_raises (pre : List MessageAction)
    (last : MessageAction) (iterations fuel : Nat)
    (E : PlannerAction → List MessageAction → Except String (List MessageAction))
    (h : (∃ c tcs, last = MessageAction.assistant c tcs ∧
            optStrTruthy c = false ∧ optListTruthy tcs = false) ∨
         (∃ s, last = MessageAction.system s)) :
    AgenticPlanner.step (pre ++ [last]) iterations
        = Except.error ("Unhandled conversation state: " ++ last.className) ∧
    AgenticLoop.runAux AgenticPlanner.step E (fuel + 1) (pre ++ [last]) iterations
        = Except.error ("Unhandled conversation state: " ++ last.className) := by
  have hstep : ∀ it : Nat, AgenticPlanner.step (pre ++ [last]) it
      = Except.error ("Unhandled conversation state: " ++ last.className) := by
    intro it
    rcases h with ⟨c, tcs, rfl, hc, ht⟩ | ⟨s, rfl⟩
    · unfold AgenticPlanner.step
      rw [List.getLast?_concat]
      simp [ht, hc, MessageAction.className]
    · unfold AgenticPlanner.step
      rw [List.getLast?_concat]
      rfl
  refine ⟨hstep iterations, ?_⟩
  simp only [AgenticLoop.runAux, hstep (iterations + 1)]

/-- Witness for C6 at a concrete malformed history. -/
theorem planner_malformed_state_raises_witness :
    AgenticPlanner.step
        [MessageAction.user "hi", MessageAction.assistant none none] 1
      = Except.error "Unhandled conversation state: AssistantMessageAction" ∧
    AgenticLoop.runAux AgenticPlanner.step (fun _ h => Except.ok h) 1
        [MessageAction.user "hi", MessageAction.assistant none none] 1
      = Except.error "Unhandled conversation state: AssistantMessageAction" :=
  planner_malformed_state_raises [MessageAction.user "hi"]
    (MessageAction.assistant none none) 1 0 (fun _ h => Except.ok h)
    (Or.inl ⟨none, none, rfl, rfl, rfl⟩)

/-- C2: for every planner/executor behaviour that never produces a terminal
action (and never raises), `AgenticLoop.run` invokes the planner exactly
`max_iterations` times and returns the exhaustion sentinel, which differs
from the `EmptyAction` result. -/
theorem loop_budget_exhaustion
    (P : List MessageAction → Nat → Except String PlannerAction)
    (E : PlannerAction → List MessageAction → Except String (List MessageAction))
    (max_iterations : Nat) (hist : List MessageAction) (message : String)
    (hP : ∀ h n, ∃ a, P h n = Except.ok a ∧ a.isTerminal = false)
    (hE : ∀ a h, ∃ h2, E a h = Except.ok h2) :
    AgenticLoop.run P E max_iterations hist message
      = Except.ok ("Max iterations reached", max_iterations) ∧
    ∀ n : Nat, (PlannerAction.empty n).terminalResult ≠ "Max iterations reached" := by
  have H : ∀ fuel h it, AgenticLoop.runAux P E fuel h it
      = Except.ok ("Max iterations reached", fuel) := by
    intro fuel
    induction fuel with
    | zero => intro h it; rfl
    | succ n ih =>
        intro h it
        obtain ⟨a, hPa, hat⟩ := hP h (it + 1)
        obtain ⟨h2, hE2⟩ := hE a h
        simp only [AgenticLoop.runAux, hPa, hat, hE2, ih h2 (it + 1)]
        rfl
  exact ⟨H max_iterations _ 0,
    fun _ => (by decide : ("" : String) ≠ "Max iterations reached")⟩

/-- Witness for C2 with a behaviour that always requests another LLM turn. -/
theorem loop_budget_exhaustion_witness :
    AgenticLoop.run (fun _ _ => Except.ok PlannerAction.makeLLMRequest)
        (fun _ h => Except.ok h) 3 [] "x"
      = Except.ok ("Max iterations reached", 3) :=
  (loop_budget_exhaustion (fun _ _ => Except.ok PlannerAction.makeLLMRequest)
    (fun _ h => Except.ok h) 3 [] "x"
    (fun _ _ => ⟨PlannerAction.makeLLMRequest, rfl, rfl⟩)
    (fun _ h => ⟨h, rfl⟩)).1

/-- Helper: `parsesToObject` unfolded to its object witness. -/
theorem parsesToObject_iff (loads : String → Option JVal) (tc : ToolCall) :
    parsesToObject loads tc = true ↔
      ∃ kwargs, loads tc.arguments = some (JVal.obj kwargs) := by
  unfold parsesToObject
  cases h : loads tc.arguments with
  | none => simp
  | some v => cases v <;> simp

/-- Helper: on a JSON-object parse the per-call dispatch never raises — the
splat succeeds for registered tools, and unregistered names never reach
`execute`. -/
theorem result_content_obj_ok (tool_map : List (String × Tool)) (tc : ToolCall)
    (kwargs : List (String × JVal)) :
    ∃ c, result_content tool_map tc (JVal.obj kwargs) = Except.ok c := by
  unfold result_content splatKwargs
  cases tool_map.lookup tc.name with
  | none => exact ⟨_, rfl⟩
  | some tool => exact ⟨_, rfl⟩

/-- Helper: when every argument string in the batch parses as a JSON
object, `ExecuteToolsAction.run` appends one tool message per request, in
request order, and raises nothing. -/
theorem executeTools_run_of_parses (loads : String → Option JVal)
    (tool_map : List (String × Tool)) :
    ∀ (tcs : List ToolCall) (hist : List MessageAction),
      (∀ tc ∈ tcs, parsesToObject loads tc = true) →
      ExecuteToolsAction.run loads tool_map tcs hist
        = (hist ++ tcs.map (fun tc => MessageAction.tool tc.id tc.name
            ((result_content tool_map tc
              ((loads tc.arguments).getD JVal.null)).toOption.getD "")),
           none) := by
  intro tcs
  induction tcs with
  | nil => intro hist _; simp [ExecuteToolsAction.run]
  | cons tc rest ih =>
      intro hist hparse
      obtain ⟨kwargs, hargs⟩ := (parsesToObject_iff loads tc).mp
        (hparse tc (List.mem_cons_self _ _))
      obtain ⟨c, hc⟩ := result_content_obj_ok tool_map tc kwargs
      have hrest := ih (hist ++ [MessageAction.tool tc.id tc.name c])
        (fun t ht => hparse t (List.mem_cons_of_mem _ ht))
      simp only [ExecuteToolsAction.run, hargs, hc] at hrest ⊢
      rw [hrest]
      simp [List.append_assoc, hargs, hc, Except.toOption]

/-- Helper: a request whose argument string does not parse aborts the batch
at that point: messages are appended only for the requests before it, and
the `JSONDecodeError` escapes. -/
theorem executeTools_run_of_bad_args (loads : String → Option JVal)
    (tool_map : List (String × Tool)) :
    ∀ (pre : List ToolCall) (bad : ToolCall) (post : List ToolCall)
      (hist : List MessageAction),
      (∀ tc ∈ pre, parsesToObject loads tc = true) →
      loads bad.arguments = none →
      ExecuteToolsAction.run loads tool_map (pre ++ bad :: post) hist
        = (hist ++ pre.map (fun tc => MessageAction.tool tc.id tc.name
            ((result_content tool_map tc
              ((loads tc.arguments).getD JVal.null)).toOption.getD "")),
           some "JSONDecodeError") := by
  intro pre
  induction pre with
  | nil =>
      intro bad post hist _ hbad
      simp [ExecuteToolsAction.run, hbad]
  | cons tc rest ih =>
      intro bad post hist hparse hbad
      obtain ⟨kwargs, hargs⟩ := (parsesToObject_iff loads tc).mp
        (hparse tc (List.mem_cons_self _ _))
      obtain ⟨c, hc⟩ := result_content_obj_ok tool_map tc kwargs
      have hrest := ih bad post (hist ++ [MessageAction.tool tc.id tc.name c])
        (fun t ht => hparse t (List.mem_cons_of_mem _ ht)) hbad
      simp only [List.cons_append, ExecuteToolsAction.run, hargs, hc,
        List.append_eq] at hrest ⊢
      rw [hrest]
      simp [List.append_assoc, hargs, hc, Except.toOption]

/-- C3: on a batch whose argument strings all parse as JSON objects (the
only shape the `execute(**function_args)` splat accepts), a tool
invocation that raises is caught per-request and converted into a failure
result (`Tool.execute` never lets the exception escape), and executing the
batch of `n` requests appends exactly `n` `ToolMessageAction` entries, in
request order, with no exception escaping the batch. -/
theorem tool_batch_isolation (loads : String → Option JVal)
    (tool_map : List (String × Tool)) (tcs : List ToolCall)
    (hist : List MessageAction)
    (hparse : ∀ tc ∈ tcs, parsesToObject loads tc = true) :
    ExecuteToolsAction.run loads tool_map tcs hist
      = (hist ++ tcs.map (fun tc => MessageAction.tool tc.id tc.name
          ((result_content tool_map tc
            ((loads tc.arguments).getD JVal.null)).toOption.getD "")),
         none) ∧
    (ExecuteToolsAction.run loads tool_map tcs hist).1.length
      = hist.length + tcs.length ∧
    (∀ (t : Tool) (args : JVal), (t.execute args).success = false →
      ∃ e, t.function args = Except.error e) := by
  refine ⟨executeTools_run_of_parses loads tool_map tcs hist hparse, ?_, ?_⟩
  · rw [executeTools_run_of_parses loads tool_map tcs hist hparse]
    simp
  · intro t args hfail
    cases hfn : t.function args with
    | ok v => exact absurd hfail (by simp [Tool.execute, hfn])
    | error e => exact ⟨e, rfl⟩

/-- Witness for C3: a batch with a succeeding tool, a raising tool, and an
unknown tool still yields exactly three results in order. -/
theorem tool_batch_isolation_witness :
    ExecuteToolsAction.run wLoads wToolMap
        [⟨"c1", "add", "a"⟩, ⟨"c2", "boom", "a"⟩, ⟨"c3", "missing", "a"⟩] []
      = ([MessageAction.tool "c1" "add"
            ((result_content wToolMap ⟨"c1", "add", "a"⟩
              ((wLoads "a").getD JVal.null)).toOption.getD ""),
          MessageAction.tool "c2" "boom"
            ((result_content wToolMap ⟨"c2", "boom", "a"⟩
              ((wLoads "a").getD JVal.null)).toOption.getD ""),
          MessageAction.tool "c3" "missing"
            ((result_content wToolMap ⟨"c3", "missing", "a"⟩
              ((wLoads "a").getD JVal.null)).toOption.getD "")],
         none) :=
  (tool_batch_isolation wLoads wToolMap
    [⟨"c1", "add", "a"⟩, ⟨"c2", "boom", "a"⟩, ⟨"c3", "missing", "a"⟩] []
    (by decide)).1

/-- C4 counterexample: for an unknown tool name the appended content is the
serialisation of `{"error": "Tool <name> not found"}` — an object with an
`error` key naming the tool but NO `success` key at all, contradicting the
claim that the content decodes to an object containing `success = false`. -/
theorem tool_not_found_no_success_key :
    ExecuteToolsAction.run wLoads [] [⟨"c1", "add", "a"⟩] []
      = ([MessageAction.tool "c1" "add"
            (dumps (JVal.obj [("error", JVal.str "Tool add not found")]))], none) ∧
    dumps (JVal.obj [("error", JVal.str "Tool add not found")])
      = "\x7b\"error\": \"Tool add not found\"\x7d" ∧
    (JVal.obj [("error", JVal.str "Tool add not found")]).lookup "success" = none ∧
    (JVal.obj [("error", JVal.str "Tool add not found")]).lookup "error"
      = some (JVal.str "Tool add not found") := by
  refine ⟨rfl, ?_, rfl, rfl⟩
  decide

/-- C4 amended: for every request whose tool name is absent from the
registry, executing the batch appends (at that request's position) a
`ToolMessageAction` whose content is the serialisation of an object whose
`error` key names the missing tool (no `success` key is present), and the
rest of the batch still runs with no exception escaping. -/
theorem tool_not_found_amended (loads : String → Option JVal)
    (tool_map : List (String × Tool)) (pre post : List ToolCall)
    (tc : ToolCall) (hist : List MessageAction)
    (hparse : ∀ t ∈ pre ++ tc :: post, parsesToObject loads t = true)
    (habsent : tool_map.lookup tc.name = none) :
    ∃ results : List MessageAction,
      ExecuteToolsAction.run loads tool_map (pre ++ tc :: post) hist
        = (hist ++ results, none) ∧
      results.length = pre.length + 1 + post.length ∧
      results[pre.length]? = some (MessageAction.tool tc.id tc.name
        (dumps (JVal.obj
          [("error", JVal.str ("Tool " ++ tc.name ++ " not found"))]))) ∧
      (JVal.obj [("error", JVal.str ("Tool " ++ tc.name ++ " not found"))]).lookup
          "success" = none := by
  refine ⟨(pre ++ tc :: post).map (fun t => MessageAction.tool t.id t.name
      ((result_content tool_map t
        ((loads t.arguments).getD JVal.null)).toOption.getD "")),
    executeTools_run_of_parses loads tool_map (pre ++ tc :: post) hist hparse,
    by simp; omega, ?_, rfl⟩
  rw [List.getElem?_map, List.getElem?_append_right (by simp)]
  simp [result_content, habsent, Except.toOption]

/-- Witness for the amended C4: a two-request batch whose second tool is
unknown. -/
theorem tool_not_found_amended_witness :
    ∃ results : List MessageAction,
      ExecuteToolsAction.run wLoads wToolMap
          [⟨"c1", "add", "a"⟩, ⟨"c2", "nope", "a"⟩] []
        = ([] ++ results, none) ∧
      results.length = 1 + 1 + 0 ∧
      results[1]? = some (MessageAction.tool "c2" "nope"
        (dumps (JVal.obj [("error", JVal.str ("Tool " ++ "nope" ++ " not found"))]))) ∧
      (JVal.obj [("error", JVal.str ("Tool " ++ "nope" ++ " not found"))]).lookup
          "success" = none :=
  tool_not_found_amended wLoads wToolMap [⟨"c1", "add", "a"⟩] []
    ⟨"c2", "nope", "a"⟩ [] (by decide) rfl



/-- C10: a tool call whose arguments string is not valid JSON makes
`ExecuteToolsAction.run` raise (`json.loads` is unguarded) before
appending a result for that request: only the requests before it get a
`ToolMessageAction`, none is appended for it or for any later request, and
the exception propagates out of the loop body to the caller rather than
being converted into a failure result. -/
theorem unguarded_argument_json (loads : String → Option JVal)
    (tool_map : List (String × Tool)) (pre post : List ToolCall)
    (bad : ToolCall) (hist histPre : List MessageAction) (c : Option String)
    (llm : List MessageAction → Except String MessageAction)
    (fuel iterations : Nat)
    (hpre : ∀ t ∈ pre, parsesToObject loads t = true)
    (hbad : loads bad.arguments = none) :
    ExecuteToolsAction.run loads tool_map (pre ++ bad :: post) hist
      = (hist ++ pre.map (fun t => MessageAction.tool t.id t.name
          ((result_content tool_map t
            ((loads t.arguments).getD JVal.null)).toOption.getD "")),
         some "JSONDecodeError") ∧
    (ExecuteToolsAction.run loads tool_map (pre ++ bad :: post) hist).1.length
      = hist.length + pre.length ∧
    AgenticLoop.runAux AgenticPlanner.step (execAction loads tool_map llm)
        (fuel + 1)
        (histPre ++ [MessageAction.assistant c (some (pre ++ bad :: post))])
        iterations
      = Except.error "JSONDecodeError" := by
  have hrun := executeTools_run_of_bad_args loads tool_map pre bad post hist
    hpre hbad
  refine ⟨hrun, by rw [hrun]; simp, ?_⟩
  have hne : pre ++ bad :: post ≠ [] :=
    List.append_ne_nil_of_right_ne_nil pre (List.cons_ne_nil _ _)
  have hstep : AgenticPlanner.step
      (histPre ++ [MessageAction.assistant c (some (pre ++ bad :: post))])
      (iterations + 1)
      = Except.ok (PlannerAction.executeTools (pre ++ bad :: post)) := by
    unfold AgenticPlanner.step
    rw [List.getLast?_concat]
    simp [optListTruthy, List.isEmpty_eq_false.mpr hne]
  have hexec := executeTools_run_of_bad_args loads tool_map pre bad post
    (histPre ++ [MessageAction.assistant c (some (pre ++ bad :: post))]) hpre hbad
  simp only [AgenticLoop.runAux, hstep, PlannerAction.isTerminal,
    execAction, hexec]
  rfl

/-- Witness for C10: the middle request of a three-request batch carries
unparseable arguments; only the first request's result is appended and the
loop raises. -/
theorem unguarded_argument_json_witness :
    ExecuteToolsAction.run wLoads wToolMap
        [⟨"c1", "add", "a"⟩, ⟨"c2", "add", "bad"⟩, ⟨"c3", "add", "a"⟩] []
      = ([] ++ [⟨"c1", "add", "a"⟩].map (fun t => MessageAction.tool t.id t.name
          ((result_content wToolMap t
            ((wLoads t.arguments).getD JVal.null)).toOption.getD "")),
         some "JSONDecodeError") ∧
    (ExecuteToolsAction.run wLoads wToolMap
        [⟨"c1", "add", "a"⟩, ⟨"c2", "add", "bad"⟩, ⟨"c3", "add", "a"⟩] []).1.length
      = 0 + 1 ∧
    AgenticLoop.runAux AgenticPlanner.step (execAction wLoads wToolMap
        (fun _ => Except.error "no llm")) 1
        ([MessageAction.user "go"] ++ [MessageAction.assistant none
          (some [⟨"c1", "add", "a"⟩, ⟨"c2", "add", "bad"⟩, ⟨"c3", "add", "a"⟩])]) 0
      = Except.error "JSONDecodeError" :=
  unguarded_argument_json wLoads wToolMap [⟨"c1", "add", "a"⟩]
    [⟨"c3", "add", "a"⟩] ⟨"c2", "add", "bad"⟩ [] [MessageAction.user "go"] none
    (fun _ => Except.error "no llm") 0 0 (by decide) rfl

/-- Helper: one successful step of `load_conversation`. -/
theorem load_conversation_cons_ok (msg : Msg) (a : MessageAction)
    (msgs : List Msg) (rest : List MessageAction)
    (h1 : roleFromMessage msg = some (Except.ok a))
    (h2 : BaseConversationWrapper.load_conversation msgs = Except.ok rest) :
    BaseConversationWrapper.load_conversation (msg :: msgs)
      = Except.ok (a :: rest) := by
  simp only [BaseConversationWrapper.load_conversation, h1, h2]

/-- C5 counterexample: an assistant entry with the present-but-empty
`tool_calls` list does not survive save-then-load — `to_message` drops the
falsy empty list, so `from_message` reconstructs `tool_calls = None`,
which is not an identical field value. -/
theorem save_load_empty_tool_calls_counterexample :
    BaseConversationWrapper.load_conversation
        (BaseConversationWrapper.save_conversation
          [MessageAction.assistant (some "hi") (some [])])
      = Except.ok [MessageAction.assistant (some "hi") none] ∧
    MessageAction.assistant (some "hi") none
      ≠ MessageAction.assistant (some "hi") (some []) := by
  exact ⟨rfl, by decide⟩

/-- C5 amended: for every conversation history composed of system, user,
assistant, and tool message entries in which no assistant entry carries the
present-but-empty `tool_calls` list, save followed by load reconstructs the
history exactly — same entry types, order, and field values. -/
theorem save_load_roundtrip (hist : List MessageAction)
    (h : ∀ m ∈ hist, m.hasEmptyToolCalls = false) :
    BaseConversationWrapper.load_conversation
        (BaseConversationWrapper.save_conversation hist)
      = Except.ok hist := by
  induction hist with
  | nil => rfl
  | cons m rest ih =>
      have hr := ih (fun x hx => h x (List.mem_cons_of_mem _ hx))
      refine load_conversation_cons_ok (MessageAction.to_message m) m
        (BaseConversationWrapper.save_conversation rest) rest ?_ hr
      cases m with
      | system c => rfl
      | user c => rfl
      | tool id name c => rfl
      | assistant c tcs =>
          cases tcs with
          | none => rfl
          | some l =>
              cases l with
              | nil =>
                  have := h (MessageAction.assistant c (some []))
                    (List.mem_cons_self _ _)
                  simp [MessageAction.hasEmptyToolCalls] at this
              | cons x xs => rfl

/-- Witness for the amended C5 on a five-entry history covering all four
entry kinds. -/
theorem save_load_roundtrip_witness :
    BaseConversationWrapper.load_conversation
        (BaseConversationWrapper.save_conversation wHist)
      = Except.ok wHist :=
  save_load_roundtrip wHist (by decide)

/-- C7: every store operation on a session id that is absent fails with the
not-found condition (KeyError / HTTP 404) and leaves the store unchanged —
no operation on an unknown id silently creates a session. -/
theorem session_not_found (α : Type) (runF : α → String → α × String)
    (resetF : α → α) (store : SessionStore α) (session_id message : String)
    (habsent : store.sessions.lookup session_id = none) :
    store.get session_id = Except.error ("KeyError: " ++ session_id) ∧
    store.delete session_id = Except.error ("KeyError: " ++ session_id) ∧
    session_run runF store session_id message
      = (HttpResult.notFound "Session not found", store) ∧
    session_reset resetF store session_id
      = (HttpResult.notFound "Session not found", store) ∧
    delete_session store session_id
      = (HttpResult.notFound "Session not found", store) := by
  have hget : store.get session_id = Except.error ("KeyError: " ++ session_id) := by
    simp [SessionStore.get, habsent]
  have hdel : store.delete session_id
      = Except.error ("KeyError: " ++ session_id) := by
    simp [SessionStore.delete, habsent]
  exact ⟨hget, hdel, by simp [session_run, hget], by simp [session_reset, hget],
    by simp [delete_session, hdel]⟩

/-- Witness for C7 on a one-session store and an unknown id. -/
theorem session_not_found_witness :
    SessionStore.get (α := Nat) ⟨[("s1", 7)]⟩ "zzz"
      = Except.error ("KeyError: " ++ "zzz") ∧
    SessionStore.delete (α := Nat) ⟨[("s1", 7)]⟩ "zzz"
      = Except.error ("KeyError: " ++ "zzz") ∧
    session_run (fun n _ => (n, "ran")) ⟨[("s1", 7)]⟩ "zzz" "msg"
      = (HttpResult.notFound "Session not found", ⟨[("s1", 7)]⟩) ∧
    session_reset (fun n => n) ⟨[("s1", 7)]⟩ "zzz"
      = (HttpResult.notFound "Session not found", ⟨[("s1", 7)]⟩) ∧
    delete_session (α := Nat) ⟨[("s1", 7)]⟩ "zzz"
      = (HttpResult.notFound "Session not found", ⟨[("s1", 7)]⟩) :=
  session_not_found Nat (fun n _ => (n, "ran")) (fun n => n) ⟨[("s1", 7)]⟩
    "zzz" "msg" rfl

/-- Helper: replacing the agent stored under `id1` does not change the
binding of a different id. -/
theorem lookup_setAgent_ne {α : Type} (l : List (String × α))
    (id1 id2 : String) (a : α) (hne : id1 ≠ id2) :
    (l.map (fun p => cond (p.1 == id1) (p.1, a) p)).lookup id2
      = l.lookup id2 := by
  induction l with
  | nil => rfl
  | cons p rest ih =>
      obtain ⟨k, v⟩ := p
      cases hk : k == id1 with
      | false =>
          cases hik : id2 == k with
          | true => simp [List.lookup, hk, hik]
          | false => simp [List.lookup, hk, hik, ih]
      | true =>
          have hkeq : k = id1 := by simpa using hk
          have hk2 : (id2 == k) = false := by
            subst hkeq
            exact beq_eq_false_iff_ne.mpr (Ne.symm hne)
          simp [List.lookup, hk, hk2, ih]

/-- Helper: deleting the binding of `id1` does not change the binding of a
different id. -/
theorem lookup_filter_ne {α : Type} (l : List (String × α))
    (id1 id2 : String) (hne : id1 ≠ id2) :
    (l.filter (fun p => !(p.1 == id1))).lookup id2 = l.lookup id2 := by
  induction l with
  | nil => rfl
  | cons p rest ih =>
      obtain ⟨k, v⟩ := p
      cases hk : k == id1 with
      | false =>
          cases hik : id2 == k with
          | true => simp [List.filter, List.lookup, hk, hik]
          | false => simp [List.filter, List.lookup, hk, hik, ih]
      | true =>
          have hkeq : k = id1 := by simpa using hk
          have hk2 : (id2 == k) = false := by
            subst hkeq
            exact beq_eq_false_iff_ne.mpr (Ne.symm hne)
          simp [List.filter, List.lookup, hk, hk2, ih]

/-- C8: for two distinct sessions in the store, running or resetting one
leaves the other session's stored agent (hence its conversation history)
unchanged, and deleting one leaves the other's run and reset endpoints
fully functional. -/
theorem session_isolation (α : Type) (runF : α → String → α × String)
    (resetF : α → α) (store : SessionStore α) (id1 id2 : String) (a2 : α)
    (message message2 : String)
    (hne : id1 ≠ id2) (h2 : store.sessions.lookup id2 = some a2) :
    ((session_run runF store id1 message).2).sessions.lookup id2 = some a2 ∧
    ((session_reset resetF store id1).2).sessions.lookup id2 = some a2 ∧
    ((delete_session store id1).2).sessions.lookup id2 = some a2 ∧
    (session_run runF (delete_session store id1).2 id2 message2).1
      = HttpResult.ok (runF a2 message2).2 ∧
    (session_reset resetF (delete_session store id1).2 id2).1
      = HttpResult.ok "ok" := by
  have hsetAgent : ∀ a : α, (SessionStore.setAgent store id1 a).sessions.lookup id2
      = some a2 := by
    intro a
    rw [SessionStore.setAgent]
    exact (lookup_setAgent_ne store.sessions id1 id2 a hne).trans h2
  have hrun : ((session_run runF store id1 message).2).sessions.lookup id2
      = some a2 := by
    unfold session_run
    cases hget : store.get id1 with
    | error e => simpa [hget] using h2
    | ok a => simp [hget, hsetAgent]
  have hreset : ((session_reset resetF store id1).2).sessions.lookup id2
      = some a2 := by
    unfold session_reset
    cases hget : store.get id1 with
    | error e => simpa [hget] using h2
    | ok a => simp [hget, hsetAgent]
  have hdel : ((delete_session store id1).2).sessions.lookup id2 = some a2 := by
    unfold delete_session
    cases hget : store.delete id1 with
    | error e => simpa [hget] using h2
    | ok s2 =>
        have : s2 = ⟨store.sessions.filter (fun p => !(p.1 == id1))⟩ := by
          unfold SessionStore.delete at hget
          cases hl : store.sessions.lookup id1 with
          | none => rw [hl] at hget; cases hget
          | some a => rw [hl] at hget; cases hget; rfl
        subst this
        simpa [hget] using (lookup_filter_ne store.sessions id1 id2 hne).trans h2
  have hget2 : ((delete_session store id1).2).get id2 = Except.ok a2 := by
    simp [SessionStore.get, hdel]
  refine ⟨hrun, hreset, hdel, ?_, ?_⟩
  · simp [session_run, hget2]
  · simp [session_reset, hget2]

/-- Witness for C8 with two sessions whose agents are growing histories. -/
theorem session_isolation_witness :
    ((session_run (fun h m => (h ++ [m], "ran")) ⟨[("s1", []), ("s2", ["x"])]⟩
        "s1" "msg").2).sessions.lookup "s2" = some ["x"] ∧
    ((session_reset (fun _ => ([] : List String)) ⟨[("s1", []), ("s2", ["x"])]⟩
        "s1").2).sessions.lookup "s2" = some ["x"] ∧
    ((delete_session (α := List String) ⟨[("s1", []), ("s2", ["x"])]⟩
        "s1").2).sessions.lookup "s2" = some ["x"] ∧
    (session_run (fun h m => (h ++ [m], "ran"))
        (delete_session (α := List String) ⟨[("s1", []), ("s2", ["x"])]⟩ "s1").2
        "s2" "msg2").1
      = HttpResult.ok ((["x"] ++ ["msg2"], "ran")).2 ∧
    (session_reset (fun _ => ([] : List String))
        (delete_session (α := List String) ⟨[("s1", []), ("s2", ["x"])]⟩ "s1").2
        "s2").1
      = HttpResult.ok "ok" :=
  session_isolation (List String) (fun h m => (h ++ [m], "ran"))
    (fun _ => []) ⟨[("s1", []), ("s2", ["x"])]⟩ "s1" "s2" ["x"] "msg" "msg2"
    (by decide) rfl

/-- C9: `RemoteAgentTool.close` is idempotent: a second close is a no-op
(same state, no request issued), across both calls the remote DELETE is
performed at most once, and after the first close the session id is
cleared. -/
theorem remote_close_idempotent (t : RemoteAgentTool) :
    ((t.close).1.close).1 = (t.close).1 ∧
    ((t.close).1.close).2 = [] ∧
    ((t.close).2 ++ ((t.close).1.close).2).length ≤ 1 ∧
    ((t.close).1).session_id = none := by
  obtain ⟨url, sid⟩ := t
  cases sid with
  | none => exact ⟨rfl, rfl, by simp [RemoteAgentTool.close], rfl⟩
  | some s => exact ⟨rfl, rfl, by simp [RemoteAgentTool.close], rfl⟩

end AgentBuilder
